import Mathlib

set_option maxRecDepth 8000

namespace BambuMcp

/-! Shallow embedding of the bambu-mcp-agent extraction and comparison core
    from parser.py, slicer.py and server.py.  Python floats are modelled as
    exact rationals and Python ints as integers; a value that may be either
    is a PyNum.  Regular-expression search is modelled by a small
    backtracking engine over character lists below; a case-insensitive
    search is modelled by lowercasing the text first, which is equivalent
    here because every pattern literal is lower-case ASCII. -/

/-- A Python number: an int or a float.  Floats are modelled as exact
    rationals; no claim in this development depends on binary rounding. -/
inductive PyNum where
  | i : ℤ → PyNum
  | f : ℚ → PyNum
  deriving DecidableEq

/-- Numeric value of a PyNum. -/
def PyNum.toQ : PyNum → ℚ
  | .i n => (n : ℚ)
  | .f q => q

/-- Python truthiness of a number: nonzero. -/
def PyNum.truthy (v : PyNum) : Bool := decide (v.toQ ≠ 0)

/-- The characters Python str.strip and the regex class \s treat as space. -/
def pySpace (c : Char) : Bool :=
  c == ' ' || c == '\t' || c == '\n' || c == '\r' || c == '\x0b' || c == '\x0c'

/-- ASCII lower-casing of one character, the fragment of str.lower relevant
    to the lower-case ASCII pattern literals used by the program. -/
def asciiLower (c : Char) : Char :=
  if 'A' ≤ c ∧ c ≤ 'Z' then Char.ofNat (c.toNat + 32) else c

/-- Lower-cased character list of a string. -/
def lowerChars (s : String) : List Char := s.toList.map asciiLower

/-- Lower-cased string. -/
def asciiLowerStr (s : String) : String := String.mk (lowerChars s)

/-- Python str.strip with no argument: drop leading and trailing space. -/
def pyStripChars (cs : List Char) : List Char :=
  ((cs.dropWhile pySpace).reverse.dropWhile pySpace).reverse

/-- Python str.strip on strings. -/
def pyStrip (s : String) : String := String.mk (pyStripChars s.toList)

/-- Contiguous-sublist test at any position. -/
def sublistAt (t : List Char) : List Char → Bool
  | [] => t.isEmpty
  | c :: rest => t.isPrefixOf (c :: rest) || sublistAt t rest

/-- Substring test, Python t in s. -/
def containsSub (s t : String) : Bool := sublistAt t.toList s.toList

/-- Split into newline-separated pieces, keeping empty pieces, as Python
    str.split with an explicit single-character separator does. -/
def splitNlAux : List Char → List Char → List String
  | [], acc => [String.mk acc.reverse]
  | c :: rest, acc =>
    if c = '\n' then String.mk acc.reverse :: splitNlAux rest []
    else splitNlAux rest (c :: acc)

/-- Python s.split on a newline separator. -/
def pySplitNl (s : String) : List String := splitNlAux s.toList []

/-- Value of a nonempty digit string. -/
def digitsToNat (cs : List Char) : ℕ :=
  cs.foldl (fun a c => 10 * a + (c.toNat - 48)) 0

/-- Python floor division and modulo on rationals: q % n for a positive n
    lands in [0, n). -/
def pyMod (q n : ℚ) : ℚ := q - n * (⌊q / n⌋ : ℚ)

/-- slicer.py _format_time on a non-None argument: format minutes as a
    human-readable duration string.  int(minutes // 60) and
    int(minutes % 60) are floors for the nonnegative values that occur. -/
def _format_time (minutes : ℚ) : String :=
  let hours : ℤ := ⌊minutes / 60⌋
  let mins : ℤ := ⌊pyMod minutes 60⌋
  if 0 < hours ∧ 0 < mins then s!"{hours}h {mins}m"
  else if 0 < hours then s!"{hours}h"
  else if 0 < mins then s!"{mins}m"
  else "0m"

/-- server.py _format_time_delta: sign prefix from the sign of the input,
    then the hour/minute rule applied to the absolute value. -/
def _format_time_delta (minutes : ℚ) : String :=
  let sign := if minutes < 0 then "-" else "+"
  let m := |minutes|
  let hours : ℤ := ⌊m / 60⌋
  let mins : ℤ := ⌊pyMod m 60⌋
  if 0 < hours then
    (if 0 < mins then sign ++ s!"{hours}h {mins}m" else sign ++ s!"{hours}h")
  else sign ++ s!"{mins}m"

/-- Round to the nearest integer, ties to even: the rounding used by the
    Python builtin round, modelled exactly over the rationals. -/
def roundHalfEvenZ (x : ℚ) : ℤ :=
  let fl := ⌊x⌋
  let r := x - (fl : ℚ)
  if r < 1 / 2 then fl
  else if 1 / 2 < r then fl + 1
  else if Even fl then fl else fl + 1

/-- Python round(x, d), modelled exactly over the rationals. -/
def pyRoundQ (x : ℚ) (d : ℕ) : ℚ :=
  ((roundHalfEvenZ (x * 10 ^ d) : ℚ)) / 10 ^ d

/-- Python float(str) for the decimal literals that occur here: optional
    surrounding whitespace, an optional sign, digits with an optional
    decimal point, and an optional exponent part.  The special forms inf
    and nan and underscore digit separators are not modelled, and the
    value is kept exact instead of being rounded to binary. -/
def charsToFloatQ (cs0 : List Char) : Option ℚ :=
  let cs1 := pyStripChars cs0
  let sgn : ℚ := match cs1 with
    | '-' :: _ => -1
    | _ => 1
  let cs2 := match cs1 with
    | '+' :: t => t
    | '-' :: t => t
    | t => t
  let ipart := cs2.takeWhile Char.isDigit
  let cs3 := cs2.drop ipart.length
  let fpart := match cs3 with
    | '.' :: t => t.takeWhile Char.isDigit
    | _ => []
  let cs4 := match cs3 with
    | '.' :: t => t.drop fpart.length
    | t => t
  if ipart.isEmpty ∧ fpart.isEmpty ∧ cs3 ≠ ['.'] then Option.none
  else if ipart.isEmpty ∧ fpart.isEmpty then Option.none
  else
    let mant : ℚ := sgn * ((digitsToNat ipart : ℚ) +
      (digitsToNat fpart : ℚ) / 10 ^ fpart.length)
    match cs4 with
    | [] => some mant
    | e :: t =>
      if e == 'e' || e == 'E' then
        let esgn : ℤ := match t with
          | '-' :: _ => -1
          | _ => 1
        let t2 := match t with
          | '+' :: u => u
          | '-' :: u => u
          | u => u
        let edig := t2.takeWhile Char.isDigit
        if edig.isEmpty ∨ ¬ (t2.drop edig.length).isEmpty then Option.none
        else some (mant * (10 : ℚ) ^ (esgn * (digitsToNat edig : ℤ)))
      else Option.none

/-- Python float(str) on strings. -/
def pyFloat (s : String) : Option ℚ := charsToFloatQ s.toList

/-- Python int(str): optional surrounding whitespace, optional sign,
    nonempty digits.  Underscore separators are not modelled. -/
def pyInt (s : String) : Option ℤ :=
  let cs1 := pyStripChars s.toList
  let sgn : ℤ := match cs1 with
    | '-' :: _ => -1
    | _ => 1
  let cs2 := match cs1 with
    | '+' :: t => t
    | '-' :: t => t
    | t => t
  if ¬ cs2.isEmpty ∧ cs2.all Char.isDigit then some (sgn * (digitsToNat cs2 : ℤ))
  else Option.none

/-- Left-pad a string with zeros to a given length. -/
def padZeros (k : ℕ) (s : String) : String :=
  String.mk (List.replicate (k - s.length) ('0')) ++ s

/-- Python repr of a float whose value is a finite decimal: an integral
    value prints with a trailing .0, and otherwise the shortest exact
    decimal expansion is printed.  Every float produced by the embedded
    code arises from a decimal literal, so this covers all uses; the
    final fallback branch is unreachable for such values. -/
def pyFloatRepr (q : ℚ) : String :=
  if q.den = 1 then toString q.num ++ (".0")
  else
    match (List.range 40).find? (fun k => (q * 10 ^ k).den = 1) with
    | some k =>
      let n := (q * 10 ^ k).num
      let sign := if n < 0 then "-" else ""
      let a := n.natAbs
      sign ++ toString (a / 10 ^ k) ++ "." ++ padZeros k (toString (a % 10 ^ k))
    | Option.none => toString q.num ++ "/" ++ toString q.den

/-- The Python format f with one decimal place, used for the fractional
    total-hours display: round half to even at one decimal and render
    with exactly one digit after the point. -/
def qFixed1 (x : ℚ) : String :=
  let n := roundHalfEvenZ (x * 10)
  let sign := if n < 0 then "-" else ""
  sign ++ toString (n.natAbs / 10) ++ "." ++ toString (n.natAbs % 10)

/-! ## A small backtracking regex engine

The patterns used by the program are sequences of literals, character
classes under * and +, optional non-capturing groups, and capturing
groups.  matchAll lists every way a sequence can match a prefix of the
input, in the priority order of a backtracking engine such as the one in
the Python re module: greedy quantifiers offer longer matches first and a
later choice point backtracks before an earlier one.  The fuel argument
only bounds the recursion; every recursive call strictly decreases
cs.length plus the pattern-list size, so the initial fuel used by
reSearch is never exhausted. -/

/-- Pattern elements: a literal, a character class starred (zero or more)
    or plussed (one or more), an optional subsequence, and a capturing
    group. -/
inductive RE where
  | lit : List Char → RE
  | star : (Char → Bool) → RE
  | plus : (Char → Bool) → RE
  | opt : List RE → RE
  | grp : List RE → RE

mutual

/-- Size of one pattern element, for the fuel bound. -/
def RE.size : RE → ℕ
  | .lit _ => 1
  | .star _ => 1
  | .plus _ => 1
  | .opt l => 1 + sizeL l
  | .grp l => 1 + sizeL l

/-- Size of a pattern sequence. -/
def sizeL : List RE → ℕ
  | [] => 0
  | r :: rs => RE.size r + sizeL rs

end

/-- All matches of a pattern sequence against a prefix of the input, in
    backtracking priority order, as pairs of consumed length and captured
    group contents (in order of appearance). -/
def matchAll : ℕ → List RE → List Char → List (ℕ × List (List Char))
  | 0, _, _ => []
  | _ + 1, [], _ => [(0, [])]
  | fuel + 1, RE.lit l :: rs, cs =>
    if l.isPrefixOf cs then
      (matchAll fuel rs (cs.drop l.length)).map (fun r => (l.length + r.1, r.2))
    else []
  | fuel + 1, RE.star _ :: rs, [] => [] ++ matchAll fuel rs []
  | fuel + 1, RE.star p :: rs, c :: cs2 =>
    (if p c then
       (matchAll fuel (RE.star p :: rs) cs2).map (fun r => (1 + r.1, r.2))
     else []) ++ matchAll fuel rs (c :: cs2)
  | _ + 1, RE.plus _ :: _, [] => []
  | fuel + 1, RE.plus p :: rs, c :: cs2 =>
    if p c then
      (matchAll fuel (RE.star p :: rs) cs2).map (fun r => (1 + r.1, r.2))
    else []
  | fuel + 1, RE.opt l :: rs, cs =>
    matchAll fuel (l ++ rs) cs ++ matchAll fuel rs cs
  | fuel + 1, RE.grp l :: rs, cs =>
    ((matchAll fuel l cs).map (fun r1 =>
      (matchAll fuel rs (cs.drop r1.1)).map (fun r2 =>
        (r1.1 + r2.1, cs.take r1.1 :: (r1.2 ++ r2.2))))).flatten

/-- re.search: try the pattern at each start position from the left and
    return the first (highest-priority) match as the pair of the matched
    span (group 0) and the captured groups. -/
def reSearch (rs : List RE) : List Char → Option (List Char × List (List Char))
  | [] =>
    match (matchAll (sizeL rs + 1) rs []).head? with
    | some r => some ([], r.2)
    | Option.none => Option.none
  | c :: cs =>
    match (matchAll ((c :: cs).length + sizeL rs + 1) rs (c :: cs)).head? with
    | some r => some ((c :: cs).take r.1, r.2)
    | Option.none => reSearch rs cs

/-- Literal pattern element from a string. -/
def rlit (s : String) : RE := RE.lit s.toList

/-- The capturing group (\d+). -/
def dgt : RE := RE.grp [RE.plus Char.isDigit]

/-- \s* -/
def ws : RE := RE.star pySpace

/-- \s+ -/
def wsp : RE := RE.plus pySpace

/-- The separator class [:\s]+ after a label. -/
def sepCS : RE := RE.plus (fun c => c == ':' || pySpace c)

/-- The hour-and-minute core with an optional minute word,
    (\d+)\s*h(?:ours?)?\s*(\d+)\s*m(?:in(?:utes?)?)?, used only by the
    first slicer pattern and the first parser pattern. -/
def hmCoreOpt : List RE :=
  [dgt, ws, rlit ("h"), RE.opt [rlit ("our"), RE.opt [rlit ("s")]],
   ws, dgt, ws, rlit ("m"),
   RE.opt [rlit ("in"), RE.opt [rlit ("ute"), RE.opt [rlit ("s")]]]]

/-- The hour-and-minute core with a mandatory in token,
    (\d+)\s*h(?:ours?)?\s*(\d+)\s*m(?:in(?:utes?)?), as written in the
    third and fifth slicer patterns. -/
def hmCoreReq : List RE :=
  [dgt, ws, rlit ("h"), RE.opt [rlit ("our"), RE.opt [rlit ("s")]],
   ws, dgt, ws, rlit ("m"),
   rlit ("in"), RE.opt [rlit ("ute"), RE.opt [rlit ("s")]]]

/-- The minute core (\d+)\s*m(?:in(?:utes?)?) with a mandatory in part. -/
def minCoreReq : List RE :=
  [dgt, ws, rlit ("m"), rlit ("in"), RE.opt [rlit ("ute"), RE.opt [rlit ("s")]]]

/-- The six time patterns of slicer.py _extract_time_from_text, in cascade
    order. -/
def timePatterns : List (List RE) :=
  [[rlit ("estimated"), wsp, rlit ("time"), sepCS] ++ hmCoreOpt,
   [rlit ("estimated"), wsp, rlit ("time"), sepCS] ++ minCoreReq,
   [rlit ("time"), sepCS] ++ hmCoreReq,
   [rlit ("time"), sepCS] ++ minCoreReq,
   hmCoreReq,
   minCoreReq]

/-- The capturing group (\d+\.?\d*). -/
def numGrp : RE :=
  RE.grp [RE.plus Char.isDigit, RE.opt [rlit (".")], RE.star Char.isDigit]

/-- g(?:rams?)? -/
def gramsTail : List RE := [rlit ("g"), RE.opt [rlit ("ram"), RE.opt [rlit ("s")]]]

/-- The three weight patterns of slicer.py _extract_weight_from_text. -/
def weightPatterns : List (List RE) :=
  [[rlit ("filament"), wsp, rlit ("weight"), sepCS, numGrp, ws] ++ gramsTail,
   [rlit ("weight"), sepCS, numGrp, ws] ++ gramsTail,
   [numGrp, ws] ++ gramsTail ++ [wsp, rlit ("filament")]]

/-- m(?:eters?)? -/
def metersTail : List RE := [rlit ("m"), RE.opt [rlit ("eter"), RE.opt [rlit ("s")]]]

/-- The three length patterns of slicer.py _extract_length_from_text. -/
def lengthPatterns : List (List RE) :=
  [[rlit ("filament"), wsp, rlit ("length"), sepCS, numGrp, ws] ++ metersTail,
   [rlit ("length"), sepCS, numGrp, ws] ++ metersTail,
   [numGrp, ws] ++ metersTail ++ [wsp, rlit ("filament")]]

/-- The three patterns of parser.py _extract_time_estimate: the
    hour-and-minute core, (\d+)\s*m(?:in(?:utes?)?)? with optional in
    part, and (\d+)\s*h(?:ours?)?. -/
def estPatterns : List (List RE) :=
  [hmCoreOpt,
   [dgt, ws, rlit ("m"), RE.opt [rlit ("in"), RE.opt [rlit ("ute"), RE.opt [rlit ("s")]]]],
   [dgt, ws, rlit ("h"), RE.opt [rlit ("our"), RE.opt [rlit ("s")]]]]

/-- The pattern loop of slicer.py _extract_time_from_text: search each
    pattern in order against the (lowered) text; a two-group match returns
    the int hours*60+minutes, a one-group match returns the int value*60
    when the matched span has an h and the float value otherwise; any
    other group shape falls through to the next pattern. -/
def runTimeCascade : List (List RE) → List Char → Option PyNum
  | [], _ => Option.none
  | pat :: rest, cs =>
    match reSearch pat cs with
    | some (_, [g1, g2]) =>
      some (PyNum.i ((digitsToNat g1 : ℤ) * 60 + (digitsToNat g2 : ℤ)))
    | some (span, [g]) =>
      some (if span.contains ('h') then PyNum.i ((digitsToNat g : ℤ) * 60)
            else PyNum.f ((digitsToNat g : ℚ)))
    | some _ => runTimeCascade rest cs
    | Option.none => runTimeCascade rest cs

/-- slicer.py _extract_time_from_text.  The IGNORECASE flag is modelled by
    lowering the text, which also makes the in-span h test of the source
    equal to testing the lowered span. -/
def _extract_time_from_text (text : String) : Option PyNum :=
  runTimeCascade timePatterns (lowerChars text)

/-- The pattern loop shared by _extract_weight_from_text and
    _extract_length_from_text: first match wins; a group value that
    float() rejects falls through to the next pattern. -/
def runFloatCascade : List (List RE) → List Char → Option ℚ
  | [], _ => Option.none
  | pat :: rest, cs =>
    match reSearch pat cs with
    | some (_, g :: _) =>
      (match charsToFloatQ g with
       | some v => some v
       | Option.none => runFloatCascade rest cs)
    | some (_, []) => runFloatCascade rest cs
    | Option.none => runFloatCascade rest cs

/-- slicer.py _extract_weight_from_text. -/
def _extract_weight_from_text (text : String) : Option ℚ :=
  runFloatCascade weightPatterns (lowerChars text)

/-- slicer.py _extract_length_from_text. -/
def _extract_length_from_text (text : String) : Option ℚ :=
  runFloatCascade lengthPatterns (lowerChars text)

/-- The pattern loop of parser.py _extract_time_estimate: a two-group
    match renders the groups as an h-and-m string; a one-group match
    appends h when the whole line has an h anywhere, else m.  The digit
    groups are case-invariant, so rendering the groups captured from the
    lowered line equals rendering those of the source line. -/
def runEstCascade : List (List RE) → List Char → Option String
  | [], _ => Option.none
  | pat :: rest, cs =>
    match reSearch pat cs with
    | some (_, [g1, g2]) =>
      some (String.mk g1 ++ ("h ") ++ String.mk g2 ++ ("m"))
    | some (_, [g]) =>
      some (String.mk g ++ (if cs.contains ('h') then "h" else "m"))
    | some _ => runEstCascade rest cs
    | Option.none => runEstCascade rest cs

/-- parser.py _extract_time_estimate. -/
def _extract_time_estimate (line : String) : Option String :=
  runEstCascade estPatterns (lowerChars line)

/-! ## parser.py -/

/-- The value the support_enabled field can take: the Python expression
    value and value.lower() in ("true", "1", "yes") evaluates to None when
    the raw value is None, to the empty string when the raw value is the
    empty string, and to a bool otherwise. -/
inductive PyTruth where
  | pnone : PyTruth
  | pstr : String → PyTruth
  | pbool : Bool → PyTruth
  deriving DecidableEq

/-- The metadata record built by parse_3mf_metadata. -/
structure Metadata where
  filament_type : Option String
  nozzle_diameter : Option String
  layer_height : Option String
  infill_density : Option String
  wall_loops : Option ℤ
  support_enabled : PyTruth
  previously_sliced : Bool
  last_estimate : Option String
  deriving DecidableEq

/-- The initial metadata record of parse_3mf_metadata. -/
def initMetadata : Metadata :=
  ⟨Option.none, Option.none, Option.none, Option.none, Option.none,
   PyTruth.pnone, false, Option.none⟩

/-- A .3mf archive as seen by parse_3mf_metadata after the zip and XML
    libraries have done their work.  sliceInfo: present entry, and if so
    whether it decodes to text (a decode failure is caught and only
    warned about).  printConfig: present entry, and if so whether the XML
    parses to a list of option elements, each a key attribute (empty
    string when absent) and an optional text value (an empty XML element
    has a None text). -/
structure Archive3mf where
  sliceInfo : Option (Option String)
  printConfig : Option (Option (List (String × Option String)))

/-- The Python expression value and value.lower() in ("true", "1", "yes")
    assigned to support_enabled. -/
def pySupportVal (v : Option String) : PyTruth :=
  match v with
  | Option.none => PyTruth.pnone
  | some s =>
    if s.isEmpty then PyTruth.pstr s
    else PyTruth.pbool (([("true"), ("1"), ("yes")] : List String).contains (asciiLowerStr s))

/-- One iteration of the option loop of parse_3mf_metadata: dispatch on
    the key and apply the per-key conversion.  A falsy value assigns None
    for the diameter, height and wall-loop keys, leaves the infill key
    untouched, and is stored as-is by the support key; a float or int
    conversion error is swallowed, keeping the previous field value. -/
def applyOption (m : Metadata) (kv : String × Option String) : Metadata :=
  let key := kv.1
  let value := kv.2
  if key = "filament_type" then { m with filament_type := value }
  else if key = "nozzle_diameter" then
    { m with nozzle_diameter := match value with
        | some s => if s.isEmpty then Option.none else some (s ++ "mm")
        | Option.none => Option.none }
  else if key = "layer_height" then
    { m with layer_height := match value with
        | some s => if s.isEmpty then Option.none else some (s ++ "mm")
        | Option.none => Option.none }
  else if key = "sparse_infill_density" then
    match value with
    | some s =>
      if s.isEmpty then m
      else
        match pyFloat s with
        | some q => { m with infill_density := some (pyFloatRepr q ++ "%") }
        | Option.none => m
    | Option.none => m
  else if key = "wall_loops" then
    match value with
    | some s =>
      if s.isEmpty then { m with wall_loops := Option.none }
      else
        match pyInt s with
        | some n => { m with wall_loops := some n }
        | Option.none => m
    | Option.none => { m with wall_loops := Option.none }
  else if key = "support_enable" then { m with support_enabled := pySupportVal value }
  else m

/-- The line filter of the slice-info loop: the line, lowered, contains
    estimated_time or time. -/
def sliceLineHasTime (line : String) : Bool :=
  containsSub (asciiLowerStr line) ("estimated_time") ||
    containsSub (asciiLowerStr line) ("time")

/-- One iteration of the slice-info loop: a line containing a time token
    overwrites last_estimate with the extraction result, successful or
    not. -/
def sliceLineStep (m : Metadata) (line : String) : Metadata :=
  if sliceLineHasTime line then { m with last_estimate := _extract_time_estimate line }
  else m

/-- The slice-info stage of parse_3mf_metadata: mark previously_sliced
    when the entry is present and run the line loop when it decodes; a
    decode failure is caught, leaving the flag set and last_estimate
    unset. -/
def sliceStage (sliceInfo : Option (Option String)) : Metadata :=
  match sliceInfo with
  | Option.none => initMetadata
  | some content? =>
    let m := { initMetadata with previously_sliced := true }
    match content? with
    | Option.none => m
    | some content => (pySplitNl content).foldl sliceLineStep m

/-- parser.py parse_3mf_metadata on a readable archive.  The fatal paths
    (missing file, wrong extension, unreadable zip) are outside this
    record-building core; a slice-info decode failure and a config XML
    parse failure are caught and only warned about. -/
def parse_3mf_metadata (a : Archive3mf) : Metadata :=
  match a.printConfig with
  | Option.none => sliceStage a.sliceInfo
  | some Option.none => sliceStage a.sliceInfo
  | some (some opts) => opts.foldl applyOption (sliceStage a.sliceInfo)

/-! ## slicer.py output interpretation -/

/-- DEFAULT_FILAMENT_COST_PER_GRAM. -/
def DEFAULT_FILAMENT_COST_PER_GRAM : ℚ := 3 / 100

/-- The metrics record produced by parse_slicer_output. -/
structure SliceMetrics where
  estimated_time_minutes : Option PyNum
  estimated_time_formatted : Option String
  filament_weight_grams : Option PyNum
  filament_length_meters : Option PyNum
  estimated_cost_usd : Option ℚ
  warnings : List String
  deriving DecidableEq

/-- The slicer JSON output as read by _extract_from_json: the six key
    names it probes, each optionally bound to a number.  Non-numeric JSON
    values would fault downstream in the source and are not modelled. -/
structure JsonData where
  estimated_time_minutes : Option PyNum := Option.none
  time_minutes : Option PyNum := Option.none
  filament_weight_grams : Option PyNum := Option.none
  weight_grams : Option PyNum := Option.none
  filament_length_meters : Option PyNum := Option.none
  length_meters : Option PyNum := Option.none

/-- The Python expression a or b on two optional numbers: a falsy left
    operand (absent key or zero value) yields the right operand as-is. -/
def pyOr (a b : Option PyNum) : Option PyNum :=
  match a with
  | some v => if v.truthy then some v else b
  | Option.none => b

/-- Guarded cost: weight * DEFAULT_FILAMENT_COST_PER_GRAM if weight else
    None. -/
def costOf (weight : Option PyNum) : Option ℚ :=
  match weight with
  | some w => if w.truthy then some (w.toQ * DEFAULT_FILAMENT_COST_PER_GRAM) else Option.none
  | Option.none => Option.none

/-- Guarded formatting: _format_time(t) if t else None. -/
def formattedOf (t : Option PyNum) : Option String :=
  match t with
  | some v => if v.truthy then some (_format_time v.toQ) else Option.none
  | Option.none => Option.none

/-- Guarded rounding at the record boundary: round(c, 2) if c else None. -/
def roundedCostOf (c : Option ℚ) : Option ℚ :=
  match c with
  | some v => if v = 0 then Option.none else some (pyRoundQ v 2)
  | Option.none => Option.none

/-- slicer.py _extract_from_json: probe the primary and alternate key per
    field with the or fallback, derive cost and formatted time, and
    return the warnings list it was handed unchanged. -/
def _extract_from_json (data : JsonData) (warnings : List String) : SliceMetrics :=
  let time_minutes := pyOr data.estimated_time_minutes data.time_minutes
  let weight_grams := pyOr data.filament_weight_grams data.weight_grams
  let length_meters := pyOr data.filament_length_meters data.length_meters
  { estimated_time_minutes := time_minutes
    estimated_time_formatted := formattedOf time_minutes
    filament_weight_grams := weight_grams
    filament_length_meters := length_meters
    estimated_cost_usd := roundedCostOf (costOf weight_grams)
    warnings := warnings }

/-- The warning lines of the text path: when the combined text contains
    warning or error case-insensitively, every line containing either
    token, stripped, capped at five. -/
def textWarnings (combined : String) : List String :=
  let lineHas := fun (line : String) =>
    containsSub (asciiLowerStr line) ("warning") ||
      containsSub (asciiLowerStr line) ("error")
  if containsSub (asciiLowerStr combined) ("warning") ||
      containsSub (asciiLowerStr combined) ("error") then
    (((pySplitNl combined).filter lineHas).map pyStrip).take 5
  else []

/-- slicer.py parse_slicer_output.  The first argument models the JSON
    strategy input: none when the output directory has no JSON file, some
    none when the first JSON file exists but reading or parsing it raises
    (which is caught, warned about, and falls through to the text
    strategy), and some (some data) when it parses. -/
def parse_slicer_output (jsonFile : Option (Option JsonData))
    (stdout stderr : String) : SliceMetrics :=
  match jsonFile with
  | some (some data) => _extract_from_json data []
  | _ =>
    let combined := stdout ++ ("\n") ++ stderr
    let time_minutes := _extract_time_from_text combined
    let weight_grams := (_extract_weight_from_text combined).map PyNum.f
    let length_meters := (_extract_length_from_text combined).map PyNum.f
    { estimated_time_minutes := time_minutes
      estimated_time_formatted := formattedOf time_minutes
      filament_weight_grams := weight_grams
      filament_length_meters := length_meters
      estimated_cost_usd := roundedCostOf (costOf weight_grams)
      warnings := textWarnings combined }

/-! ## server.py -/

/-- ASCII upper-casing of one character. -/
def asciiUpper (c : Char) : Char :=
  if 'a' ≤ c ∧ c ≤ 'z' then Char.ofNat (c.toNat - 32) else c

/-- Python str.capitalize: first character upper, the rest lower. -/
def pyCapitalize (s : String) : String :=
  match s.toList with
  | [] => ""
  | c :: rest => String.mk (asciiUpper c :: rest.map asciiLower)

/-- server.py _generate_recommendation, given the estimated_time_minutes
    values of the four profile results (None models both a missing key
    and a None value; the numeric value is what the arithmetic uses). -/
def _generate_recommendation (current fast balanced strong : Option ℚ) : String :=
  match current, fast, balanced, strong with
  | some current_time, some fast_time, some balanced_time, some strong_time =>
    let fastest := min (min fast_time balanced_time) strong_time
    let fastest_name :=
      if fastest = fast_time then "fast"
      else if fastest = balanced_time then "balanced"
      else "strong"
    let savings := current_time - fastest
    if 30 < savings then
      "Recommendation: Use " ++ pyCapitalize fastest_name ++
        " profile. You\x27ll save " ++ _format_time_delta savings ++
        " per unit compared to current settings. This is optimal for minimizing print time."
    else if savings < -30 then
      "Current settings are already well-optimized. Fast profile saves only " ++
        _format_time_delta savings ++ " per unit."
    else
      "All profiles have similar print times. Fast profile saves " ++
        _format_time_delta savings ++
        " per unit. Consider your quality requirements when choosing."
  | _, _, _, _ => "Unable to generate recommendation: missing time estimates"

/-- The errors calculate_batch_metrics can raise in its request-handling
    core: a profile name outside the fixed list, or a profile result with
    no time estimate.  The invocation-collaborator failures (missing
    file, missing CLI, timeout) happen inside run_slicer and are outside
    this core. -/
inductive BatchError where
  | invalidProfile : String → BatchError
  | missingTimePerUnit : BatchError
  deriving DecidableEq

/-- The record returned by calculate_batch_metrics. -/
structure BatchResult where
  quantity : ℤ
  profile : String
  total_time_hours : ℚ
  total_time_formatted : String
  total_filament_kg : Option ℚ
  total_cost_usd : Option ℚ
  per_unit_time : String
  comparison_vs_current : String
  deriving DecidableEq

deriving instance DecidableEq for Except

/-- The total-duration formatting block of calculate_batch_metrics:
    int(hours // 24) days with the remainder hours when positive, else
    the one-decimal fractional hour display.  The hours word in the day
    display is a fixed plural in the source. -/
def formatTotalTime (total_time_hours : ℚ) : String :=
  let days : ℤ := ⌊total_time_hours / 24⌋
  let hours : ℤ := ⌊pyMod total_time_hours 24⌋
  if 0 < days then
    s!"{days} day" ++ (if 1 < days then "s" else "") ++ (", ") ++ s!"{hours} hours"
  else qFixed1 total_time_hours ++ " hours"

/-- The per-unit time display of calculate_batch_metrics (unlike
    _format_time it keeps a zero minute part when hours are positive). -/
def formatPerUnitTime (t : ℚ) : String :=
  let per_unit_hours : ℤ := ⌊t / 60⌋
  let per_unit_mins : ℤ := ⌊pyMod t 60⌋
  if 0 < per_unit_hours then s!"{per_unit_hours}h {per_unit_mins}m"
  else s!"{per_unit_mins}m"

/-- server.py calculate_batch_metrics, its request-validation and
    batch-arithmetic core: the slicer invocations are modelled by the
    baseline and profile SliceMetrics arguments (for the current profile
    the source uses the baseline as the profile result).  The only
    request validation in the source is the profile-name membership test;
    the quantity is used unchecked. -/
def calculate_batch_metrics (profile_name : String) (quantity : ℤ)
    (baseline profile_result : SliceMetrics) : Except BatchError BatchResult :=
  if ¬ ([("current"), ("fast"), ("balanced"), ("strong")] : List String).contains profile_name then
    Except.error (BatchError.invalidProfile profile_name)
  else
    match profile_result.estimated_time_minutes with
    | Option.none => Except.error BatchError.missingTimePerUnit
    | some tpu =>
      let time_per_unit := tpu.toQ
      let total_time_minutes := time_per_unit * (quantity : ℚ)
      let total_time_hours := total_time_minutes / 60
      let total_filament_kg : Option ℚ :=
        match profile_result.filament_weight_grams with
        | some w => if w.truthy then some (w.toQ * (quantity : ℚ) / 1000) else Option.none
        | Option.none => Option.none
      let total_cost_usd : Option ℚ :=
        match profile_result.estimated_cost_usd with
        | some c => if c = 0 then Option.none else some (c * (quantity : ℚ))
        | Option.none => Option.none
      let comparison :=
        match baseline.estimated_time_minutes with
        | some bt =>
          if bt.truthy ∧ profile_name ≠ "current" then
            _format_time_delta ((time_per_unit - bt.toQ) * (quantity : ℚ) / 60) ++
              " vs. current settings"
          else "baseline"
        | Option.none => "baseline"
      Except.ok
        { quantity := quantity
          profile := profile_name
          total_time_hours := pyRoundQ total_time_hours 1
          total_time_formatted := formatTotalTime total_time_hours
          total_filament_kg :=
            match total_filament_kg with
            | some k => if k = 0 then Option.none else some (pyRoundQ k 2)
            | Option.none => Option.none
          total_cost_usd :=
            match total_cost_usd with
            | some c => if c = 0 then Option.none else some (pyRoundQ c 2)
            | Option.none => Option.none
          per_unit_time := formatPerUnitTime time_per_unit
          comparison_vs_current := comparison }

/-! ## Pattern well-formedness

Every capturing group of the source patterns is mandatory, sits at the
top level of its pattern, and contains no nested group; the predicates
below state this shape, and the lemmas further down show that a match of
such a pattern carries exactly one captured string per group, which is
what lets the cascade of the source be compared with the first-match
description of the specification. -/

mutual

/-- No capturing group anywhere in one element. -/
def grpFreeRE : RE → Bool
  | .lit _ => true
  | .star _ => true
  | .plus _ => true
  | .opt l => grpFreeL l
  | .grp _ => false

/-- No capturing group anywhere in a sequence. -/
def grpFreeL : List RE → Bool
  | [] => true
  | r :: rs => grpFreeRE r && grpFreeL rs

end

/-- Element well-formedness: groups only at top level, none nested, none
    under an optional part. -/
def wfRE : RE → Bool
  | .lit _ => true
  | .star _ => true
  | .plus _ => true
  | .opt l => grpFreeL l
  | .grp l => grpFreeL l

/-- Sequence well-formedness. -/
def wfL : List RE → Bool
  | [] => true
  | r :: rs => wfRE r && wfL rs

/-- Number of top-level capturing groups of a sequence. -/
def countGrps : List RE → ℕ
  | [] => 0
  | RE.grp _ :: rs => 1 + countGrps rs
  | _ :: rs => countGrps rs

/-- First pattern of a cascade that matches anywhere in the text. -/
def firstCascadeMatch (pats : List (List RE)) (cs : List Char) :
    Option (List Char × List (List Char)) :=
  pats.findSome? (fun pat => reSearch pat cs)

/-- Modelled from the spec: time extraction evaluates its pattern cascade
    in order with the first match winning; an hour+minute (two-group)
    match yields hours*60+minutes, a single-number match is multiplied by
    60 exactly when the matched span contains an hour marker and is
    otherwise treated as minutes, and no match yields None. -/
def timeCascadeSpec (text : String) : Option PyNum :=
  match firstCascadeMatch timePatterns (lowerChars text) with
  | some (_, [g1, g2]) =>
    some (PyNum.i ((digitsToNat g1 : ℤ) * 60 + (digitsToNat g2 : ℤ)))
  | some (span, [g]) =>
    some (if span.contains ('h') then PyNum.i ((digitsToNat g : ℤ) * 60)
          else PyNum.f ((digitsToNat g : ℚ)))
  | _ => Option.none

/-! ## Helper lemmas -/

lemma pyMod_nonneg (q n : ℚ) (hn : 0 < n) : 0 ≤ pyMod q n := by
  have h := Int.sub_floor_div_mul_nonneg q hn
  unfold pyMod
  nlinarith [h]

lemma pyMod_lt (q n : ℚ) (hn : 0 < n) : pyMod q n < n := by
  have h := Int.sub_floor_div_mul_lt q hn
  unfold pyMod
  nlinarith [h]

lemma floor_qdiv_int (m : ℤ) : ⌊(m : ℚ) / 60⌋ = m / 60 := by
  have h : ((60 : ℚ)) = ((60 : ℕ) : ℚ) := by norm_num
  rw [h, Rat.floor_intCast_div_natCast]
  norm_num

lemma pyMod_int (m : ℤ) : pyMod (m : ℚ) 60 = ((m % 60 : ℤ) : ℚ) := by
  unfold pyMod
  rw [floor_qdiv_int, Int.emod_def]
  push_cast
  ring

/-! ## Claim C7 -/

lemma fmtDelta_abs (q : ℚ) :
    _format_time_delta q = (if q < 0 then "-" else "+") ++ _format_time |q| := by
  simp only [_format_time_delta, _format_time]
  have h60 : (0 : ℚ) < 60 := by norm_num
  have hh : 0 ≤ ⌊|q| / 60⌋ := Int.floor_nonneg.mpr (by positivity)
  have hm : 0 ≤ ⌊pyMod |q| 60⌋ := Int.floor_nonneg.mpr (pyMod_nonneg _ _ h60)
  by_cases hgt : 0 < ⌊|q| / 60⌋
  · by_cases hmin : 0 < ⌊pyMod |q| 60⌋
    · simp [hgt, hmin]
    · simp [hgt, hmin]
  · have hh0 : ⌊|q| / 60⌋ = 0 := le_antisymm (not_lt.mp hgt) hh
    by_cases hmin : 0 < ⌊pyMod |q| 60⌋
    · simp [hgt, hmin, hh0]
    · have hm0 : ⌊pyMod |q| 60⌋ = 0 := le_antisymm (not_lt.mp hmin) hm
      simp [hgt, hmin, hh0, hm0]
      congr 1

lemma fmtTime_int (m : ℤ) (hm : 0 ≤ m) :
    _format_time (m : ℚ) =
      if m / 60 = 0 then s!"{m % 60}m"
      else if m % 60 = 0 then s!"{m / 60}h"
      else s!"{m / 60}h {m % 60}m" := by
  simp only [_format_time]
  rw [floor_qdiv_int, pyMod_int, Int.floor_intCast]
  have hd : 0 ≤ m / 60 := Int.ediv_nonneg hm (by norm_num)
  have hr : 0 ≤ m % 60 := Int.emod_nonneg m (by norm_num)
  by_cases h1 : m / 60 = 0
  · by_cases h2 : m % 60 = 0
    · simp [h1, h2]
      decide
    · have h2' : 0 < m % 60 := lt_of_le_of_ne hr (Ne.symm h2)
      simp [h1, h2']
  · have h1' : 0 < m / 60 := lt_of_le_of_ne hd (Ne.symm h1)
    by_cases h2 : m % 60 = 0
    · simp [h1, h1', h2]
    · have h2' : 0 < m % 60 := lt_of_le_of_ne hr (Ne.symm h2)
      simp [h1, h1', h2, h2']

/-- C7: for every minute count, the shared duration formatter computes
    hours as the floor of minutes/60 and mins as minutes mod 60, emitting
    mins m when hours is zero (0m when both are zero), hours h mins m
    when both are positive, and hours h when the minutes vanish; the
    delta formatter prefixes the sign of the difference and applies the
    same rule to the absolute value, with format_delta 90 = +1h 30m,
    format_delta (-45) = -45m and format_delta 0 = +0m. -/
theorem C7_duration_formatting :
    (∀ q : ℚ, _format_time_delta q = (if q < 0 then "-" else "+") ++ _format_time |q|)
    ∧ (∀ m : ℤ, 0 ≤ m →
        _format_time (m : ℚ) =
          if m / 60 = 0 then s!"{m % 60}m"
          else if m % 60 = 0 then s!"{m / 60}h"
          else s!"{m / 60}h {m % 60}m")
    ∧ _format_time_delta 90 = "+1h 30m"
    ∧ _format_time_delta (-45) = "-45m"
    ∧ _format_time_delta 0 = "+0m" := by
  refine ⟨fmtDelta_abs, fmtTime_int, ?_, ?_, ?_⟩
  · simp only [_format_time_delta, pyMod]
    norm_num
    decide
  · simp only [_format_time_delta, pyMod]
    norm_num
    decide
  · simp only [_format_time_delta, pyMod]
    norm_num
    decide

/-- Witness for C7 at minutes 90. -/
theorem C7_duration_formatting_witness :
    (0 : ℤ) ≤ 90 ∧ _format_time ((90 : ℤ) : ℚ) = "1h 30m" := by
  refine ⟨by norm_num, ?_⟩
  rw [C7_duration_formatting.2.1 90 (by norm_num)]
  decide

/-! ## Claim C5 -/

lemma min3_eq_fast (f b s : ℚ) : min (min f b) s = f ↔ f ≤ b ∧ f ≤ s := by
  constructor
  · intro h
    constructor
    · have h1 : min (min f b) s ≤ min f b := min_le_left _ _
      have h2 : min f b ≤ b := min_le_right _ _
      linarith [h ▸ le_trans h1 h2]
    · have h1 : min (min f b) s ≤ s := min_le_right _ _
      linarith [h ▸ h1]
  · rintro ⟨h1, h2⟩
    rw [min_eq_left h1, min_eq_left h2]

lemma min3_eq_balanced (f b s : ℚ) (hnot : ¬(f ≤ b ∧ f ≤ s)) :
    min (min f b) s = b ↔ b ≤ s := by
  constructor
  · intro h
    have h1 : min (min f b) s ≤ s := min_le_right _ _
    linarith [h ▸ h1]
  · intro hbs
    rcases le_or_lt f b with hfb | hfb
    · have hsf : s < f := by
        by_contra hc
        exact hnot ⟨hfb, le_of_not_lt hc⟩
      linarith
    · rw [min_eq_right hfb.le, min_eq_left hbs]

/-- C5: the recommendation needs all four time estimates, otherwise the
    fixed insufficient-data message is returned; the fastest preset is
    the minimum of the three presets with ties resolved to the first of
    fast, balanced, strong; savings above 30 selects the switch message,
    below -30 the near-optimal message, and everything else, the
    boundaries included, the neutral similar-times message. -/
theorem C5_recommendation :
    (∀ c f b s : Option ℚ,
        (c = Option.none ∨ f = Option.none ∨ b = Option.none ∨ s = Option.none) →
        _generate_recommendation c f b s =
          "Unable to generate recommendation: missing time estimates")
    ∧ (∀ c f b s : ℚ,
        _generate_recommendation (some c) (some f) (some b) (some s) =
          (let fastest_name :=
            if f ≤ b ∧ f ≤ s then "fast" else if b ≤ s then "balanced" else "strong"
          let savings := c - min (min f b) s
          if 30 < savings then
            "Recommendation: Use " ++ pyCapitalize fastest_name ++
              " profile. You\x27ll save " ++ _format_time_delta savings ++
              " per unit compared to current settings. This is optimal for minimizing print time."
          else if savings < -30 then
            "Current settings are already well-optimized. Fast profile saves only " ++
              _format_time_delta savings ++ " per unit."
          else
            "All profiles have similar print times. Fast profile saves " ++
              _format_time_delta savings ++
              " per unit. Consider your quality requirements when choosing.")) := by
  constructor
  · intro c f b s h
    cases c <;> cases f <;> cases b <;> cases s <;> simp_all [_generate_recommendation]
  · intro c f b s
    simp only [_generate_recommendation]
    have hname : (if min (min f b) s = f then "fast"
        else if min (min f b) s = b then "balanced" else "strong")
        = (if f ≤ b ∧ f ≤ s then "fast" else if b ≤ s then "balanced" else "strong") := by
      by_cases h1 : f ≤ b ∧ f ≤ s
      · rw [if_pos ((min3_eq_fast f b s).mpr h1), if_pos h1]
      · rw [if_neg (fun hc => h1 ((min3_eq_fast f b s).mp hc)), if_neg h1]
        by_cases h2 : b ≤ s
        · rw [if_pos ((min3_eq_balanced f b s h1).mpr h2), if_pos h2]
        · rw [if_neg (fun hc => h2 ((min3_eq_balanced f b s h1).mp hc)), if_neg h2]
    rw [hname]

/-- Witness for C5: a missing estimate, and the spec example with
    current 100, fast 60, balanced 70, strong 90. -/
theorem C5_recommendation_witness :
    _generate_recommendation Option.none (some 60) (some 70) (some 90) =
      "Unable to generate recommendation: missing time estimates"
    ∧ _generate_recommendation (some 100) (some 60) (some 70) (some 90) =
      "Recommendation: Use Fast profile. You\x27ll save +40m per unit compared to current settings. This is optimal for minimizing print time." := by
  constructor
  · exact C5_recommendation.1 Option.none (some 60) (some 70) (some 90) (Or.inl rfl)
  · rw [C5_recommendation.2 100 60 70 90]
    norm_num [_format_time_delta, pyMod, pyCapitalize]
    decide

/-! ## Claim C4 -/

/-- C4 counterexample: a JSON output file that is present but does not
    parse falls through to the text strategy, which collects the
    error-bearing line from the combined text, so a present JSON file
    does not guarantee empty warnings. -/
theorem C4_counterexample :
    (parse_slicer_output (some Option.none) ("error: bad") ("")).warnings
      = [("error: bad")]
    ∧ (parse_slicer_output (some Option.none) ("error: bad") ("")).warnings ≠ [] := by
  constructor
  · decide
  · decide

/-- C4 amended: when the JSON output file is present and parses, the
    warnings sequence is empty whatever the combined text contains; when
    it is present but fails to parse, the interpreter behaves exactly as
    if no JSON file were present, falling back to the text strategy
    (which may populate warnings). -/
theorem C4_json_warnings :
    (∀ (d : JsonData) (stdout stderr : String),
        (parse_slicer_output (some (some d)) stdout stderr).warnings = [])
    ∧ (∀ (stdout stderr : String),
        parse_slicer_output (some Option.none) stdout stderr =
          parse_slicer_output Option.none stdout stderr) := by
  constructor
  · intro d stdout stderr
    rfl
  · intro stdout stderr
    rfl

/-! ## Claim C10 -/

/-- C10: a metric value of exactly zero is treated as absence: a zero
    primary key in the JSON path is skipped in favour of the alternate
    key, a zero estimated_time_minutes leaves estimated_time_formatted
    None on both strategies, and a zero filament_weight_grams leaves
    estimated_cost_usd None on both strategies. -/
theorem C10_zero_is_absence :
    (∀ (d : JsonData) (w : List String) (v : PyNum),
        d.estimated_time_minutes = some v → v.toQ = 0 →
        (_extract_from_json d w).estimated_time_minutes = d.time_minutes)
    ∧ (∀ (d : JsonData) (w : List String) (v : PyNum),
        d.filament_weight_grams = some v → v.toQ = 0 →
        (_extract_from_json d w).filament_weight_grams = d.weight_grams)
    ∧ (∀ (d : JsonData) (w : List String) (v : PyNum),
        d.filament_length_meters = some v → v.toQ = 0 →
        (_extract_from_json d w).filament_length_meters = d.length_meters)
    ∧ (∀ (jsonFile : Option (Option JsonData)) (stdout stderr : String) (v : PyNum),
        (parse_slicer_output jsonFile stdout stderr).estimated_time_minutes = some v →
        v.toQ = 0 →
        (parse_slicer_output jsonFile stdout stderr).estimated_time_formatted = Option.none)
    ∧ (∀ (jsonFile : Option (Option JsonData)) (stdout stderr : String) (v : PyNum),
        (parse_slicer_output jsonFile stdout stderr).filament_weight_grams = some v →
        v.toQ = 0 →
        (parse_slicer_output jsonFile stdout stderr).estimated_cost_usd = Option.none) := by
  have htr : ∀ v : PyNum, v.toQ = 0 → v.truthy = false := by
    intro v hv
    simp [PyNum.truthy, hv]
  refine ⟨?_, ?_, ?_, ?_, ?_⟩
  · intro d w v hd hv
    simp [_extract_from_json, pyOr, hd, htr v hv]
  · intro d w v hd hv
    simp [_extract_from_json, pyOr, hd, htr v hv]
  · intro d w v hd hv
    simp [_extract_from_json, pyOr, hd, htr v hv]
  · intro jsonFile stdout stderr v hd hv
    match jsonFile with
    | some (some d) =>
      simp only [parse_slicer_output, _extract_from_json] at hd ⊢
      rw [hd]
      simp [formattedOf, htr v hv]
    | some Option.none =>
      simp only [parse_slicer_output] at hd ⊢
      rw [hd]
      simp [formattedOf, htr v hv]
    | Option.none =>
      simp only [parse_slicer_output] at hd ⊢
      rw [hd]
      simp [formattedOf, htr v hv]
  · intro jsonFile stdout stderr v hd hv
    match jsonFile with
    | some (some d) =>
      simp only [parse_slicer_output, _extract_from_json] at hd ⊢
      rw [hd]
      simp [costOf, roundedCostOf, htr v hv]
    | some Option.none =>
      simp only [parse_slicer_output] at hd ⊢
      rw [hd]
      simp [costOf, roundedCostOf, htr v hv]
    | Option.none =>
      simp only [parse_slicer_output] at hd ⊢
      rw [hd]
      simp [costOf, roundedCostOf, htr v hv]

/-- Witness for C10: a JSON record whose primary time key is int zero and
    whose alternate is float five, and a parse with both time keys and
    both weight keys zero. -/
theorem C10_zero_is_absence_witness :
    (_extract_from_json
        ⟨some (PyNum.i 0), some (PyNum.f 5), Option.none, Option.none,
          Option.none, Option.none⟩ []).estimated_time_minutes = some (PyNum.f 5)
    ∧ (parse_slicer_output
        (some (some ⟨some (PyNum.i 0), some (PyNum.f 0), some (PyNum.i 0),
          some (PyNum.f 0), Option.none, Option.none⟩)) ("") ("")).estimated_time_formatted
        = Option.none
    ∧ (parse_slicer_output
        (some (some ⟨some (PyNum.i 0), some (PyNum.f 0), some (PyNum.i 0),
          some (PyNum.f 0), Option.none, Option.none⟩)) ("") ("")).estimated_cost_usd
        = Option.none := by
  refine ⟨?_, ?_, ?_⟩
  · exact C10_zero_is_absence.1 _ [] (PyNum.i 0) rfl (by decide)
  · exact C10_zero_is_absence.2.2.2.1 _ ("") ("") (PyNum.f 0) (by decide) (by decide)
  · exact C10_zero_is_absence.2.2.2.2 _ ("") ("") (PyNum.f 0) (by decide) (by decide)

/-! ## Claim C9 -/

/-- C9 counterexample: with a recognized profile name, a zero quantity is
    accepted and a batch result is produced; no error of any kind is
    raised for the non-positive quantity. -/
theorem C9_counterexample :
    (calculate_batch_metrics ("current") 0
        ⟨some (PyNum.f 75), Option.none, Option.none, Option.none, Option.none, []⟩
        ⟨some (PyNum.f 75), Option.none, Option.none, Option.none, Option.none, []⟩).map
      (fun r => r.quantity) = Except.ok 0 := by
  decide

/-- C9 amended: the only top-level request validation in
    calculate_batch_metrics is the profile-name membership test, which
    raises for an unrecognized name; a non-positive quantity is not
    validated and flows unchecked into the batch arithmetic, producing a
    result whenever a time per unit is available. -/
theorem C9_quantity_not_validated :
    (∀ (name : String) (n : ℤ) (b p : SliceMetrics),
        ¬ ([("current"), ("fast"), ("balanced"), ("strong")] : List String).contains name →
        calculate_batch_metrics name n b p =
          Except.error (BatchError.invalidProfile name))
    ∧ (∀ (n : ℤ) (b p : SliceMetrics) (v : PyNum),
        p.estimated_time_minutes = some v →
        ∃ r, calculate_batch_metrics ("current") n b p = Except.ok r) := by
  constructor
  · intro name n b p h
    simp only [calculate_batch_metrics]
    rw [if_pos h]
  · intro n b p v hp
    exact ⟨_, by simp only [calculate_batch_metrics, hp]; rw [if_neg (by decide)]⟩

/-- Witness for C9 amended: an unrecognized name errors, and quantity
    zero with a recognized name succeeds. -/
theorem C9_quantity_not_validated_witness :
    calculate_batch_metrics ("turbo") 5
        ⟨some (PyNum.f 75), Option.none, Option.none, Option.none, Option.none, []⟩
        ⟨some (PyNum.f 75), Option.none, Option.none, Option.none, Option.none, []⟩
      = Except.error (BatchError.invalidProfile ("turbo"))
    ∧ ∃ r, calculate_batch_metrics ("current") (-3)
        ⟨some (PyNum.f 75), Option.none, Option.none, Option.none, Option.none, []⟩
        ⟨some (PyNum.f 75), Option.none, Option.none, Option.none, Option.none, []⟩
      = Except.ok r := by
  constructor
  · exact C9_quantity_not_validated.1 ("turbo") 5 _ _ (by decide)
  · exact C9_quantity_not_validated.2 (-3) _ _ (PyNum.f 75) rfl

/-! ## Claim C6 -/

lemma batch_total_time (n : ℤ) (b p : SliceMetrics) (v : PyNum)
    (hp : p.estimated_time_minutes = some v) :
    (calculate_batch_metrics ("current") n b p).map (fun r => r.total_time_hours)
      = Except.ok (pyRoundQ (v.toQ * (n : ℚ) / 60) 1)
    ∧ (calculate_batch_metrics ("current") n b p).map (fun r => r.total_time_formatted)
      = Except.ok (formatTotalTime (v.toQ * (n : ℚ) / 60)) := by
  constructor <;>
    (simp only [calculate_batch_metrics, hp]
     rw [if_neg (by decide)]
     rfl)

lemma batch_total_filament (n : ℤ) (b p : SliceMetrics) (v w : PyNum)
    (hp : p.estimated_time_minutes = some v)
    (hw : p.filament_weight_grams = some w) :
    (calculate_batch_metrics ("current") n b p).map (fun r => r.total_filament_kg)
      = Except.ok
        (if w.truthy then
          (if w.toQ * (n : ℚ) / 1000 = 0 then Option.none
           else some (pyRoundQ (w.toQ * (n : ℚ) / 1000) 2))
         else Option.none) := by
  simp only [calculate_batch_metrics, hp, hw]
  rw [if_neg (by decide)]
  by_cases htw : w.truthy <;> simp [htw, Except.map]

lemma batch_total_cost (n : ℤ) (b p : SliceMetrics) (v : PyNum) (c : ℚ)
    (hp : p.estimated_time_minutes = some v)
    (hc : p.estimated_cost_usd = some c) :
    (calculate_batch_metrics ("current") n b p).map (fun r => r.total_cost_usd)
      = Except.ok
        (if c = 0 then Option.none
         else if c * (n : ℚ) = 0 then Option.none
         else some (pyRoundQ (c * (n : ℚ)) 2)) := by
  simp only [calculate_batch_metrics, hp, hc]
  rw [if_neg (by decide)]
  by_cases hcz : c = 0 <;> simp [hcz, Except.map]

lemma formatTotalTime_switch (th : ℚ) :
    formatTotalTime th =
      if 24 ≤ th then
        s!"{⌊th / 24⌋} day" ++ (if 1 < ⌊th / 24⌋ then "s" else "") ++ (", ") ++
          s!"{⌊pyMod th 24⌋} hours"
      else qFixed1 th ++ " hours" := by
  have hiff : (0 < ⌊th / 24⌋) ↔ (24 ≤ th) := by
    rw [Int.lt_iff_add_one_le, zero_add, Int.le_floor]
    constructor
    · intro h
      have := (one_le_div (by norm_num : (0:ℚ) < 24)).mp (by exact_mod_cast h)
      linarith
    · intro h
      exact_mod_cast (one_le_div (by norm_num : (0:ℚ) < 24)).mpr (by linarith)
  simp only [formatTotalTime, hiff]

/-- C6 counterexample: with per-unit time 75 minutes and quantity 20 the
    total is 25 hours and the code formats it as 1 day, 1 hours, with a
    plural hours word, not 1 day, 1 hour. -/
theorem C6_counterexample :
    (calculate_batch_metrics ("current") 20
        ⟨some (PyNum.f 75), Option.none, Option.none, Option.none, Option.none, []⟩
        ⟨some (PyNum.f 75), Option.none, Option.none, Option.none, Option.none, []⟩).map
      (fun r => r.total_time_formatted) = Except.ok ("1 day, 1 hours")
    ∧ (calculate_batch_metrics ("current") 20
        ⟨some (PyNum.f 75), Option.none, Option.none, Option.none, Option.none, []⟩
        ⟨some (PyNum.f 75), Option.none, Option.none, Option.none, Option.none, []⟩).map
      (fun r => r.total_time_formatted) ≠ Except.ok ("1 day, 1 hour") := by
  have h := (batch_total_time 20
    ⟨some (PyNum.f 75), Option.none, Option.none, Option.none, Option.none, []⟩
    ⟨some (PyNum.f 75), Option.none, Option.none, Option.none, Option.none, []⟩
    (PyNum.f 75) rfl).2
  have h25 : (PyNum.f 75).toQ * ((20 : ℤ) : ℚ) / 60 = 25 := by
    simp [PyNum.toQ]
    norm_num
  rw [h25] at h
  have hfmt : formatTotalTime 25 = "1 day, 1 hours" := by
    rw [formatTotalTime_switch]
    rw [if_pos (by norm_num)]
    have hd : ⌊(25 : ℚ) / 24⌋ = 1 := by norm_num
    have hm : ⌊pyMod (25 : ℚ) 24⌋ = 1 := by
      rw [pyMod, hd]
      norm_num
    rw [hd, hm]
    decide
  rw [hfmt] at h
  exact ⟨h, by rw [h]; decide⟩

/-- C6 amended: batch totals (time, filament, cost) scale linearly with
    the quantity before presentation rounding, the total-duration display
    switches from fractional hours to day granularity exactly when the
    total hours reach 24, day count by integer division with the
    remainder hours alongside; per-unit time 75 minutes with quantity 20
    gives 25 total hours, formatted as 1 day, 1 hours (the hours word of
    the day display is a fixed plural). -/
theorem C6_batch_scaling :
    (∀ (n : ℤ) (b p : SliceMetrics) (v : PyNum),
        p.estimated_time_minutes = some v →
        (calculate_batch_metrics ("current") n b p).map (fun r => r.total_time_hours)
          = Except.ok (pyRoundQ (v.toQ * (n : ℚ) / 60) 1))
    ∧ (∀ (n : ℤ) (b p : SliceMetrics) (v w : PyNum),
        p.estimated_time_minutes = some v → p.filament_weight_grams = some w →
        (calculate_batch_metrics ("current") n b p).map (fun r => r.total_filament_kg)
          = Except.ok
            (if w.truthy then
              (if w.toQ * (n : ℚ) / 1000 = 0 then Option.none
               else some (pyRoundQ (w.toQ * (n : ℚ) / 1000) 2))
             else Option.none))
    ∧ (∀ (n : ℤ) (b p : SliceMetrics) (v : PyNum) (c : ℚ),
        p.estimated_time_minutes = some v → p.estimated_cost_usd = some c →
        (calculate_batch_metrics ("current") n b p).map (fun r => r.total_cost_usd)
          = Except.ok
            (if c = 0 then Option.none
             else if c * (n : ℚ) = 0 then Option.none
             else some (pyRoundQ (c * (n : ℚ)) 2)))
    ∧ (∀ th : ℚ,
        formatTotalTime th =
          if 24 ≤ th then
            s!"{⌊th / 24⌋} day" ++ (if 1 < ⌊th / 24⌋ then "s" else "") ++ (", ") ++
              s!"{⌊pyMod th 24⌋} hours"
          else qFixed1 th ++ " hours")
    ∧ (calculate_batch_metrics ("current") 20
        ⟨some (PyNum.f 75), Option.none, Option.none, Option.none, Option.none, []⟩
        ⟨some (PyNum.f 75), Option.none, Option.none, Option.none, Option.none, []⟩).map
        (fun r => r.total_time_hours) = Except.ok 25
    ∧ (calculate_batch_metrics ("current") 20
        ⟨some (PyNum.f 75), Option.none, Option.none, Option.none, Option.none, []⟩
        ⟨some (PyNum.f 75), Option.none, Option.none, Option.none, Option.none, []⟩).map
        (fun r => r.total_time_formatted) = Except.ok ("1 day, 1 hours") := by
  refine ⟨fun n b p v hp => (batch_total_time n b p v hp).1,
          fun n b p v w hp hw => batch_total_filament n b p v w hp hw,
          fun n b p v c hp hc => batch_total_cost n b p v c hp hc,
          formatTotalTime_switch, ?_, ?_⟩
  · have h := (batch_total_time 20
      ⟨some (PyNum.f 75), Option.none, Option.none, Option.none, Option.none, []⟩
      ⟨some (PyNum.f 75), Option.none, Option.none, Option.none, Option.none, []⟩
      (PyNum.f 75) rfl).1
    have h25 : (PyNum.f 75).toQ * ((20 : ℤ) : ℚ) / 60 = 25 := by
      simp [PyNum.toQ]
      norm_num
    rw [h25] at h
    rw [h]
    have : pyRoundQ 25 1 = 25 := by
      rw [pyRoundQ, roundHalfEvenZ]
      norm_num
    rw [this]
  · have h := (batch_total_time 20
      ⟨some (PyNum.f 75), Option.none, Option.none, Option.none, Option.none, []⟩
      ⟨some (PyNum.f 75), Option.none, Option.none, Option.none, Option.none, []⟩
      (PyNum.f 75) rfl).2
    have h25 : (PyNum.f 75).toQ * ((20 : ℤ) : ℚ) / 60 = 25 := by
      simp [PyNum.toQ]
      norm_num
    rw [h25] at h
    rw [h]
    rw [formatTotalTime_switch]
    rw [if_pos (by norm_num : (24:ℚ) ≤ 25)]
    have hd : ⌊(25 : ℚ) / 24⌋ = 1 := by norm_num
    have hm : ⌊pyMod (25 : ℚ) 24⌋ = 1 := by
      rw [pyMod, hd]
      norm_num
    rw [hd, hm]
    decide

/-- Witness for C6 amended at quantity 20 and per-unit time 75. -/
theorem C6_batch_scaling_witness :
    (⟨some (PyNum.f 75), Option.none, Option.none, Option.none, Option.none,
        []⟩ : SliceMetrics).estimated_time_minutes = some (PyNum.f 75)
    ∧ (calculate_batch_metrics ("current") 20
        ⟨some (PyNum.f 75), Option.none, Option.none, Option.none, Option.none, []⟩
        ⟨some (PyNum.f 75), Option.none, Option.none, Option.none, Option.none, []⟩).map
      (fun r => r.total_time_hours)
      = Except.ok (pyRoundQ ((PyNum.f 75).toQ * ((20 : ℤ) : ℚ) / 60) 1) := by
  exact ⟨rfl, C6_batch_scaling.1 20 _ _ (PyNum.f 75) rfl⟩

/-! ## Parser fold lemmas -/

lemma sliceLineStep_support (m : Metadata) (line : String) :
    (sliceLineStep m line).support_enabled = m.support_enabled := by
  unfold sliceLineStep
  split <;> rfl

lemma sliceLineStep_infill (m : Metadata) (line : String) :
    (sliceLineStep m line).infill_density = m.infill_density := by
  unfold sliceLineStep
  split <;> rfl

lemma sliceLineStep_prev (m : Metadata) (line : String) :
    (sliceLineStep m line).previously_sliced = m.previously_sliced := by
  unfold sliceLineStep
  split <;> rfl

lemma foldl_slice_support (lines : List String) (m : Metadata) :
    (lines.foldl sliceLineStep m).support_enabled = m.support_enabled := by
  induction lines generalizing m with
  | nil => rfl
  | cons l ls ih => rw [List.foldl_cons, ih, sliceLineStep_support]

lemma foldl_slice_infill (lines : List String) (m : Metadata) :
    (lines.foldl sliceLineStep m).infill_density = m.infill_density := by
  induction lines generalizing m with
  | nil => rfl
  | cons l ls ih => rw [List.foldl_cons, ih, sliceLineStep_infill]

lemma foldl_slice_prev (lines : List String) (m : Metadata) :
    (lines.foldl sliceLineStep m).previously_sliced = m.previously_sliced := by
  induction lines generalizing m with
  | nil => rfl
  | cons l ls ih => rw [List.foldl_cons, ih, sliceLineStep_prev]

lemma sliceStage_support (si : Option (Option String)) :
    (sliceStage si).support_enabled = PyTruth.pnone := by
  rcases si with _ | (_ | content)
  · rfl
  · rfl
  · simp only [sliceStage]
    rw [foldl_slice_support]
    rfl

lemma sliceStage_infill (si : Option (Option String)) :
    (sliceStage si).infill_density = Option.none := by
  rcases si with _ | (_ | content)
  · rfl
  · rfl
  · simp only [sliceStage]
    rw [foldl_slice_infill]
    rfl

lemma applyOption_support_other (m : Metadata) (kv : String × Option String)
    (h : kv.1 ≠ "support_enable") :
    (applyOption m kv).support_enabled = m.support_enabled := by
  rcases kv with ⟨key, value⟩
  simp only at h
  rcases value with _ | s <;>
    (unfold applyOption
     dsimp only
     split_ifs with h1 h2 h3 h4 h5 <;>
       first
       | rfl
       | exact absurd (by assumption) h
       | (split <;> rfl))

lemma applyOption_support_self (m : Metadata) (v : Option String) :
    (applyOption m (("support_enable"), v)).support_enabled = pySupportVal v := by
  rfl

lemma foldl_applyOption_support (opts : List (String × Option String)) (m : Metadata)
    (h : ∀ kv ∈ opts, kv.1 ≠ "support_enable") :
    (opts.foldl applyOption m).support_enabled = m.support_enabled := by
  induction opts generalizing m with
  | nil => rfl
  | cons kv rest ih =>
    rw [List.foldl_cons, ih _ (fun x hx => h x (List.mem_cons_of_mem kv hx)),
      applyOption_support_other m kv (h kv (List.mem_cons_self kv rest))]

/-! ## Claim C2 -/

/-- C2 counterexample: the settings XML contains the support key as an
    empty element (its text is None), and the resulting support_enabled
    is Python None, not a boolean, although the key is present. -/
theorem C2_counterexample :
    (parse_3mf_metadata
        ⟨Option.none, some (some [(("support_enable"), Option.none)])⟩).support_enabled
      = PyTruth.pnone := by
  decide

/-- C2 amended: when the settings XML carries the support key with a
    nonempty raw value, support_enabled is boolean, true exactly when the
    value compared case-insensitively is one of true, 1, yes; when the
    key is absent (or the whole settings entry is absent or unparsable)
    support_enabled is None; but when the key is present with a missing
    or empty text value, the falsy raw value itself (None or the empty
    string) is stored, not boolean false.  The last occurrence of the key
    wins. -/
theorem C2_support_flag :
    (∀ (si : Option (Option String)) (pre post : List (String × Option String)) (s : String),
        s ≠ "" →
        (∀ kv ∈ post, kv.1 ≠ "support_enable") →
        (parse_3mf_metadata
            ⟨si, some (some (pre ++ (("support_enable"), some s) :: post))⟩).support_enabled
          = PyTruth.pbool
              (([("true"), ("1"), ("yes")] : List String).contains (asciiLowerStr s)))
    ∧ (∀ (si : Option (Option String)) (opts : List (String × Option String)),
        (∀ kv ∈ opts, kv.1 ≠ "support_enable") →
        (parse_3mf_metadata ⟨si, some (some opts)⟩).support_enabled = PyTruth.pnone)
    ∧ (∀ si, (parse_3mf_metadata ⟨si, Option.none⟩).support_enabled = PyTruth.pnone)
    ∧ (∀ si, (parse_3mf_metadata ⟨si, some Option.none⟩).support_enabled = PyTruth.pnone)
    ∧ (∀ (si : Option (Option String)) (pre post : List (String × Option String)),
        (∀ kv ∈ post, kv.1 ≠ "support_enable") →
        (parse_3mf_metadata
            ⟨si, some (some (pre ++ (("support_enable"), Option.none) :: post))⟩).support_enabled
          = PyTruth.pnone) := by
  refine ⟨?_, ?_, ?_, ?_, ?_⟩
  · intro si pre post s hs hpost
    simp only [parse_3mf_metadata]
    rw [List.foldl_append, List.foldl_cons, foldl_applyOption_support post _ hpost,
      applyOption_support_self]
    simp only [pySupportVal]
    rw [if_neg (fun hc => hs (by rwa [← String.isEmpty_iff]))]
  · intro si opts h
    simp only [parse_3mf_metadata]
    rw [foldl_applyOption_support opts _ h, sliceStage_support]
  · intro si
    simp only [parse_3mf_metadata]
    rw [sliceStage_support]
  · intro si
    simp only [parse_3mf_metadata]
    rw [sliceStage_support]
  · intro si pre post hpost
    simp only [parse_3mf_metadata]
    rw [List.foldl_append, List.foldl_cons, foldl_applyOption_support post _ hpost,
      applyOption_support_self]
    rfl

/-- Witness for C2 amended: the key set to True yields boolean true, the
    key set to no yields boolean false, and the empty-element archive of
    the counterexample shape keeps None. -/
theorem C2_support_flag_witness :
    (parse_3mf_metadata
        ⟨Option.none, some (some [(("support_enable"), some ("True"))])⟩).support_enabled
      = PyTruth.pbool true
    ∧ (parse_3mf_metadata
        ⟨Option.none, some (some [(("support_enable"), some ("no"))])⟩).support_enabled
      = PyTruth.pbool false
    ∧ (parse_3mf_metadata ⟨Option.none, Option.none⟩).support_enabled = PyTruth.pnone := by
  refine ⟨?_, ?_, ?_⟩
  · have h := C2_support_flag.1 Option.none [] [] ("True") (by decide)
      (fun kv hkv => absurd hkv (List.not_mem_nil kv))
    simpa using h
  · have h := C2_support_flag.1 Option.none [] [] ("no") (by decide)
      (fun kv hkv => absurd hkv (List.not_mem_nil kv))
    simpa using h
  · exact C2_support_flag.2.2.1 Option.none

/-! ## Claim C3 -/

lemma applyOption_infill_other (m : Metadata) (kv : String × Option String)
    (h : kv.1 ≠ "sparse_infill_density") :
    (applyOption m kv).infill_density = m.infill_density := by
  rcases kv with ⟨key, value⟩
  simp only at h
  rcases value with _ | s <;>
    (unfold applyOption
     dsimp only
     split_ifs with h1 h2 h3 h4 h5 <;>
       first
       | rfl
       | exact absurd (by assumption) h
       | (split <;> rfl))

lemma applyOption_infill_self (m : Metadata) (v : Option String) :
    (applyOption m (("sparse_infill_density"), v)).infill_density =
      (match v with
       | some s =>
         if s.isEmpty then m.infill_density
         else
           (match pyFloat s with
            | some q => some (pyFloatRepr q ++ "%")
            | Option.none => m.infill_density)
       | Option.none => m.infill_density) := by
  rcases v with _ | s
  · rfl
  · unfold applyOption
    dsimp only
    rw [if_neg (by decide), if_neg (by decide), if_neg (by decide), if_pos rfl]
    by_cases he : s.isEmpty = true
    · simp [he]
    · simp only [he, if_false]
      cases hq : pyFloat s <;> simp [hq]

lemma foldl_applyOption_infill (opts : List (String × Option String)) (m : Metadata)
    (h : ∀ kv ∈ opts, kv.1 ≠ "sparse_infill_density") :
    (opts.foldl applyOption m).infill_density = m.infill_density := by
  induction opts generalizing m with
  | nil => rfl
  | cons kv rest ih =>
    rw [List.foldl_cons, ih _ (fun x hx => h x (List.mem_cons_of_mem kv hx)),
      applyOption_infill_other m kv (h kv (List.mem_cons_self kv rest))]

/-- C3: the code at the claimed inputs.  The raw infill value 20 is
    parsed with float and formatted through the float repr, producing
    20.0 percent, not the 20 percent the claim (and the repository test
    suite, test_basic.py) expects; likewise 0 gives 0.0 percent.  The
    zero value is still a valid non-None result, and invalid or empty
    values yield None. -/
theorem C3_infill_normalization :
    (parse_3mf_metadata
        ⟨Option.none, some (some [(("sparse_infill_density"), some ("20"))])⟩).infill_density
      = some ("20.0%")
    ∧ (parse_3mf_metadata
        ⟨Option.none, some (some [(("sparse_infill_density"), some ("20"))])⟩).infill_density
      ≠ some ("20%")
    ∧ (parse_3mf_metadata
        ⟨Option.none, some (some [(("sparse_infill_density"), some ("0"))])⟩).infill_density
      = some ("0.0%")
    ∧ (parse_3mf_metadata
        ⟨Option.none, some (some [(("sparse_infill_density"), some ("0"))])⟩).infill_density
      ≠ Option.none
    ∧ (parse_3mf_metadata
        ⟨Option.none, some (some [(("sparse_infill_density"), some ("abc"))])⟩).infill_density
      = Option.none
    ∧ (parse_3mf_metadata
        ⟨Option.none, some (some [(("sparse_infill_density"), Option.none)])⟩).infill_density
      = Option.none := by
  have h20 : pyFloat ("20") = some (20 : ℚ) := by
    have h0 : pyFloat ("20") = some ((1 : ℚ) * ((20 : ℚ) + (0 : ℚ) / 10 ^ 0)) := by rfl
    rw [h0]
    norm_num
  have h0q : pyFloat ("0") = some (0 : ℚ) := by
    have h0 : pyFloat ("0") = some ((1 : ℚ) * ((0 : ℚ) + (0 : ℚ) / 10 ^ 0)) := by rfl
    rw [h0]
    norm_num
  have habc : pyFloat ("abc") = Option.none := by rfl
  have e20 : (parse_3mf_metadata
      ⟨Option.none, some (some [(("sparse_infill_density"), some ("20"))])⟩).infill_density
      = some ("20.0%") := by
    simp only [parse_3mf_metadata, List.foldl_cons, List.foldl_nil]
    rw [applyOption_infill_self]
    simp only [h20]
    rw [if_neg (by decide)]
    decide
  have e0 : (parse_3mf_metadata
      ⟨Option.none, some (some [(("sparse_infill_density"), some ("0"))])⟩).infill_density
      = some ("0.0%") := by
    simp only [parse_3mf_metadata, List.foldl_cons, List.foldl_nil]
    rw [applyOption_infill_self]
    simp only [h0q]
    rw [if_neg (by decide)]
    decide
  refine ⟨e20, by rw [e20]; decide, e0, by rw [e0]; decide, ?_, ?_⟩
  · simp only [parse_3mf_metadata, List.foldl_cons, List.foldl_nil]
    rw [applyOption_infill_self]
    simp only [habc]
    rw [if_neg (by decide)]
    exact sliceStage_infill _
  · simp only [parse_3mf_metadata, List.foldl_cons, List.foldl_nil]
    rw [applyOption_infill_self]
    exact sliceStage_infill _

/-! ## Claim C8 -/

lemma applyOption_prev (m : Metadata) (kv : String × Option String) :
    (applyOption m kv).previously_sliced = m.previously_sliced := by
  rcases kv with ⟨key, value⟩
  rcases value with _ | s <;>
    (unfold applyOption
     dsimp only
     split_ifs <;>
       first
       | rfl
       | (split <;> rfl))

lemma applyOption_last (m : Metadata) (kv : String × Option String) :
    (applyOption m kv).last_estimate = m.last_estimate := by
  rcases kv with ⟨key, value⟩
  rcases value with _ | s <;>
    (unfold applyOption
     dsimp only
     split_ifs <;>
       first
       | rfl
       | (split <;> rfl))

lemma foldl_applyOption_prev (opts : List (String × Option String)) (m : Metadata) :
    (opts.foldl applyOption m).previously_sliced = m.previously_sliced := by
  induction opts generalizing m with
  | nil => rfl
  | cons kv rest ih => rw [List.foldl_cons, ih, applyOption_prev]

lemma foldl_applyOption_last (opts : List (String × Option String)) (m : Metadata) :
    (opts.foldl applyOption m).last_estimate = m.last_estimate := by
  induction opts generalizing m with
  | nil => rfl
  | cons kv rest ih => rw [List.foldl_cons, ih, applyOption_last]

lemma foldl_slice_last (lines : List String) (m : Metadata) :
    (lines.foldl sliceLineStep m).last_estimate =
      lines.foldl
        (fun r l => if sliceLineHasTime l then _extract_time_estimate l else r)
        m.last_estimate := by
  induction lines generalizing m with
  | nil => rfl
  | cons l ls ih =>
    rw [List.foldl_cons, List.foldl_cons, ih]
    by_cases h : sliceLineHasTime l <;> simp [sliceLineStep, h]

lemma parse_prev (a : Archive3mf) :
    (parse_3mf_metadata a).previously_sliced = (sliceStage a.sliceInfo).previously_sliced := by
  rcases a with ⟨si, _ | (_ | opts)⟩
  · rfl
  · rfl
  · simp only [parse_3mf_metadata]
    rw [foldl_applyOption_prev]

lemma parse_last (a : Archive3mf) :
    (parse_3mf_metadata a).last_estimate = (sliceStage a.sliceInfo).last_estimate := by
  rcases a with ⟨si, _ | (_ | opts)⟩
  · rfl
  · rfl
  · simp only [parse_3mf_metadata]
    rw [foldl_applyOption_last]

/-- C8 counterexample: in a slice info of two time-bearing lines whose
    first parses and whose second does not, the loop overwrites the first
    success with the later None, so the final last_estimate is None even
    though the first successful line gave 5m; the first successful line
    does not win. -/
theorem C8_counterexample :
    _extract_time_estimate ("time: 5m") = some ("5m")
    ∧ sliceLineHasTime ("time: 5m") = true
    ∧ sliceLineHasTime ("time: xyz") = true
    ∧ _extract_time_estimate ("time: xyz") = Option.none
    ∧ (parse_3mf_metadata
        ⟨some (some ("time: 5m\ntime: xyz")), Option.none⟩).last_estimate
      = Option.none := by
  refine ⟨by decide, by decide, by decide, by decide, by decide⟩

/-- C8 amended: whenever the slice-info entry is present,
    previously_sliced is true; when its content decodes, extraction is
    attempted on each line containing a time-like token, every matching
    line overwriting last_estimate with its own extraction result
    (successful or not), so the last matching line wins; a decode failure
    only warns, leaving previously_sliced true and last_estimate unset,
    and never aborts extraction. -/
theorem C8_slice_info :
    (∀ (a : Archive3mf) (x : Option String),
        a.sliceInfo = some x → (parse_3mf_metadata a).previously_sliced = true)
    ∧ (∀ (a : Archive3mf) (content : String),
        a.sliceInfo = some (some content) →
        (parse_3mf_metadata a).last_estimate =
          (pySplitNl content).foldl
            (fun r l => if sliceLineHasTime l then _extract_time_estimate l else r)
            Option.none)
    ∧ (∀ (a : Archive3mf),
        a.sliceInfo = some Option.none →
        (parse_3mf_metadata a).previously_sliced = true
        ∧ (parse_3mf_metadata a).last_estimate = Option.none) := by
  have hstage_prev : ∀ x : Option String, (sliceStage (some x)).previously_sliced = true := by
    intro x
    rcases x with _ | content
    · rfl
    · simp only [sliceStage]
      rw [foldl_slice_prev]
  refine ⟨?_, ?_, ?_⟩
  · intro a x hx
    rw [parse_prev, hx, hstage_prev]
  · intro a content hx
    rw [parse_last, hx]
    simp only [sliceStage]
    rw [foldl_slice_last]
    rfl
  · intro a hx
    constructor
    · rw [parse_prev, hx, hstage_prev]
    · rw [parse_last, hx]
      rfl

/-- Witness for C8 at a one-line slice info: the single matching line is
    also the last one, and its extraction result 5m is stored. -/
theorem C8_slice_info_witness :
    (⟨some (some ("time: 5m")), Option.none⟩ : Archive3mf).sliceInfo
      = some (some ("time: 5m"))
    ∧ (parse_3mf_metadata ⟨some (some ("time: 5m")), Option.none⟩).previously_sliced = true
    ∧ (parse_3mf_metadata ⟨some (some ("time: 5m")), Option.none⟩).last_estimate
      = some ("5m") := by
  refine ⟨rfl, C8_slice_info.1 _ (some ("time: 5m")) rfl, ?_⟩
  rw [C8_slice_info.2.1 ⟨some (some ("time: 5m")), Option.none⟩ ("time: 5m") rfl]
  decide

/-! ## Claim C1: capture-count lemmas for the engine -/

lemma grpFreeL_append (l1 l2 : List RE) :
    grpFreeL (l1 ++ l2) = (grpFreeL l1 && grpFreeL l2) := by
  induction l1 with
  | nil => simp [grpFreeL]
  | cons r rs ih => simp [grpFreeL, ih, Bool.and_assoc]

lemma grpFree_wfL (l : List RE) (h : grpFreeL l = true) : wfL l = true := by
  induction l with
  | nil => rfl
  | cons r rs ih =>
    simp only [grpFreeL, Bool.and_eq_true] at h
    simp only [wfL, Bool.and_eq_true]
    refine ⟨?_, ih h.2⟩
    cases r with
    | lit t => rfl
    | star p => rfl
    | plus p => rfl
    | opt sub => exact h.1
    | grp sub => exact absurd h.1 (by simp [grpFreeRE])

lemma wfL_append (l1 l2 : List RE) (h1 : wfL l1 = true) (h2 : wfL l2 = true) :
    wfL (l1 ++ l2) = true := by
  induction l1 with
  | nil => exact h2
  | cons r rs ih =>
    simp only [wfL, Bool.and_eq_true] at h1
    simp only [List.cons_append, wfL, Bool.and_eq_true]
    exact ⟨h1.1, ih h1.2⟩

lemma grpFree_countGrps (l : List RE) (h : grpFreeL l = true) : countGrps l = 0 := by
  induction l with
  | nil => rfl
  | cons r rs ih =>
    simp only [grpFreeL, Bool.and_eq_true] at h
    cases r with
    | lit t => simpa [countGrps] using ih h.2
    | star p => simpa [countGrps] using ih h.2
    | plus p => simpa [countGrps] using ih h.2
    | opt sub => simpa [countGrps] using ih h.2
    | grp sub => exact absurd h.1 (by simp [grpFreeRE])

lemma countGrps_append (l1 l2 : List RE) :
    countGrps (l1 ++ l2) = countGrps l1 + countGrps l2 := by
  induction l1 with
  | nil => simp [countGrps]
  | cons r rs ih =>
    cases r with
    | lit t => simpa [countGrps] using ih
    | star p => simpa [countGrps] using ih
    | plus p => simpa [countGrps] using ih
    | opt sub => simpa [countGrps] using ih
    | grp sub => simp [countGrps, ih, Nat.add_assoc]

lemma matchAll_grpFree_captures (fuel : ℕ) :
    ∀ (l : List RE) (cs : List Char) (r : ℕ × List (List Char)),
      grpFreeL l = true → r ∈ matchAll fuel l cs → r.2 = [] := by
  induction fuel with
  | zero =>
    intro l cs r _ hr
    simp [matchAll] at hr
  | succ n ih =>
    intro l cs r hfree hr
    match l with
    | [] =>
      simp only [matchAll, List.mem_singleton] at hr
      rw [hr]
    | RE.lit t :: rs =>
      simp only [grpFreeL, grpFreeRE, Bool.true_and] at hfree
      simp only [matchAll] at hr
      by_cases hp : t.isPrefixOf cs
      · rw [if_pos hp] at hr
        obtain ⟨r2, hr2, rfl⟩ := List.mem_map.mp hr
        exact ih rs _ r2 hfree hr2
      · rw [if_neg hp] at hr
        simp at hr
    | RE.star p :: rs =>
      simp only [grpFreeL, grpFreeRE, Bool.true_and] at hfree
      match cs with
      | [] =>
        simp only [matchAll, List.nil_append] at hr
        exact ih rs [] r hfree hr
      | c :: cs2 =>
        simp only [matchAll] at hr
        rcases List.mem_append.mp hr with hr1 | hr1
        · by_cases hc : p c
          · rw [if_pos hc] at hr1
            obtain ⟨r2, hr2, rfl⟩ := List.mem_map.mp hr1
            exact ih (RE.star p :: rs) cs2 r2 (by simp [grpFreeL, grpFreeRE, hfree]) hr2
          · rw [if_neg hc] at hr1
            simp at hr1
        · exact ih rs (c :: cs2) r hfree hr1
    | RE.plus p :: rs =>
      simp only [grpFreeL, grpFreeRE, Bool.true_and] at hfree
      match cs with
      | [] => simp [matchAll] at hr
      | c :: cs2 =>
        simp only [matchAll] at hr
        by_cases hc : p c
        · rw [if_pos hc] at hr
          obtain ⟨r2, hr2, rfl⟩ := List.mem_map.mp hr
          exact ih (RE.star p :: rs) cs2 r2 (by simp [grpFreeL, grpFreeRE, hfree]) hr2
        · rw [if_neg hc] at hr
          simp at hr
    | RE.opt sub :: rs =>
      simp only [grpFreeL, grpFreeRE, Bool.and_eq_true] at hfree
      simp only [matchAll] at hr
      rcases List.mem_append.mp hr with hr1 | hr1
      · exact ih (sub ++ rs) cs r
          (by rw [grpFreeL_append, hfree.1, hfree.2]; rfl) hr1
      · exact ih rs cs r hfree.2 hr1
    | RE.grp sub :: rs =>
      exact absurd hfree (by simp [grpFreeL, grpFreeRE])

lemma matchAll_captures_length (fuel : ℕ) :
    ∀ (l : List RE) (cs : List Char) (r : ℕ × List (List Char)),
      wfL l = true → r ∈ matchAll fuel l cs → r.2.length = countGrps l := by
  induction fuel with
  | zero =>
    intro l cs r _ hr
    simp [matchAll] at hr
  | succ n ih =>
    intro l cs r hwf hr
    match l with
    | [] =>
      simp only [matchAll, List.mem_singleton] at hr
      rw [hr]
      rfl
    | RE.lit t :: rs =>
      simp only [wfL, wfRE, Bool.true_and] at hwf
      simp only [matchAll] at hr
      by_cases hp : t.isPrefixOf cs
      · rw [if_pos hp] at hr
        obtain ⟨r2, hr2, rfl⟩ := List.mem_map.mp hr
        simpa [countGrps] using ih rs _ r2 hwf hr2
      · rw [if_neg hp] at hr
        simp at hr
    | RE.star p :: rs =>
      simp only [wfL, wfRE, Bool.true_and] at hwf
      match cs with
      | [] =>
        simp only [matchAll, List.nil_append] at hr
        simpa [countGrps] using ih rs [] r hwf hr
      | c :: cs2 =>
        simp only [matchAll] at hr
        rcases List.mem_append.mp hr with hr1 | hr1
        · by_cases hc : p c
          · rw [if_pos hc] at hr1
            obtain ⟨r2, hr2, rfl⟩ := List.mem_map.mp hr1
            simpa [countGrps] using
              ih (RE.star p :: rs) cs2 r2 (by simp [wfL, wfRE, hwf]) hr2
          · rw [if_neg hc] at hr1
            simp at hr1
        · simpa [countGrps] using ih rs (c :: cs2) r hwf hr1
    | RE.plus p :: rs =>
      simp only [wfL, wfRE, Bool.true_and] at hwf
      match cs with
      | [] => simp [matchAll] at hr
      | c :: cs2 =>
        simp only [matchAll] at hr
        by_cases hc : p c
        · rw [if_pos hc] at hr
          obtain ⟨r2, hr2, rfl⟩ := List.mem_map.mp hr
          simpa [countGrps] using
            ih (RE.star p :: rs) cs2 r2 (by simp [wfL, wfRE, hwf]) hr2
        · rw [if_neg hc] at hr
          simp at hr
    | RE.opt sub :: rs =>
      simp only [wfL, wfRE, Bool.and_eq_true] at hwf
      simp only [matchAll] at hr
      rcases List.mem_append.mp hr with hr1 | hr1
      · have h := ih (sub ++ rs) cs r (wfL_append sub rs (grpFree_wfL sub hwf.1) hwf.2) hr1
        rw [h, countGrps_append, grpFree_countGrps sub hwf.1]
        simp [countGrps]
      · simpa [countGrps] using ih rs cs r hwf.2 hr1
    | RE.grp sub :: rs =>
      simp only [wfL, wfRE, Bool.and_eq_true] at hwf
      simp only [matchAll] at hr
      obtain ⟨inner, hinner, hrin⟩ := List.mem_flatten.mp hr
      obtain ⟨r1, hr1, rfl⟩ := List.mem_map.mp hinner
      obtain ⟨r2, hr2, rfl⟩ := List.mem_map.mp hrin
      have e1 : r1.2 = [] := matchAll_grpFree_captures n sub cs r1 hwf.1 hr1
      have e2 : r2.2.length = countGrps rs := ih rs _ r2 hwf.2 hr2
      simp [countGrps, e1, e2, Nat.add_comm]

lemma reSearch_captures (rs : List RE) (hwf : wfL rs = true) :
    ∀ (cs sp : List Char) (gs : List (List Char)),
      reSearch rs cs = some (sp, gs) → gs.length = countGrps rs := by
  intro cs
  induction cs with
  | nil =>
    intro sp gs h
    simp only [reSearch] at h
    cases hh : (matchAll (sizeL rs + 1) rs []).head? with
    | none =>
      rw [hh] at h
      simp at h
    | some r =>
      rw [hh] at h
      simp only [Option.some.injEq, Prod.mk.injEq] at h
      rw [← h.2]
      exact matchAll_captures_length (sizeL rs + 1) rs [] r hwf
        (List.mem_of_mem_head? (by simp [hh]))
  | cons c cs2 ih =>
    intro sp gs h
    simp only [reSearch, List.length_cons] at h
    cases hh : (matchAll (cs2.length + 1 + sizeL rs + 1) rs (c :: cs2)).head? with
    | none =>
      rw [hh] at h
      exact ih sp gs h
    | some r =>
      rw [hh] at h
      simp only [Option.some.injEq, Prod.mk.injEq] at h
      rw [← h.2]
      exact matchAll_captures_length (cs2.length + 1 + sizeL rs + 1) rs (c :: cs2) r hwf
        (List.mem_of_mem_head? (by simp [hh]))

lemma cascade_equiv (pats : List (List RE)) (cs : List Char)
    (h : ∀ pat ∈ pats, wfL pat = true ∧ (countGrps pat = 1 ∨ countGrps pat = 2)) :
    runTimeCascade pats cs =
      (match pats.findSome? (fun pat => reSearch pat cs) with
       | some (_, [g1, g2]) =>
         some (PyNum.i ((digitsToNat g1 : ℤ) * 60 + (digitsToNat g2 : ℤ)))
       | some (span, [g]) =>
         some (if span.contains ('h') then PyNum.i ((digitsToNat g : ℤ) * 60)
               else PyNum.f ((digitsToNat g : ℚ)))
       | _ => Option.none) := by
  induction pats with
  | nil => rfl
  | cons pat rest ih =>
    have hpat := h pat (List.mem_cons_self pat rest)
    have hrest : ∀ p ∈ rest, wfL p = true ∧ (countGrps p = 1 ∨ countGrps p = 2) :=
      fun p hp => h p (List.mem_cons_of_mem pat hp)
    cases hs : reSearch pat cs with
    | none =>
      simp only [runTimeCascade, hs, List.findSome?_cons]
      exact ih hrest
    | some r =>
      obtain ⟨sp, gs⟩ := r
      have hlen : gs.length = countGrps pat := reSearch_captures pat hpat.1 cs sp gs hs
      rcases hpat.2 with h1 | h2
      · rw [h1] at hlen
        obtain ⟨g, rfl⟩ := List.length_eq_one.mp hlen
        simp [runTimeCascade, hs, List.findSome?_cons]
      · rw [h2] at hlen
        obtain ⟨g1, g2, rfl⟩ := List.length_eq_two.mp hlen
        simp [runTimeCascade, hs, List.findSome?_cons]

/-- C1 counterexample: the text of the claimed example yields no time.
    The separator of the labeled patterns does not match the underscore
    of estimated_time, and the bare hour+minute patterns of the source
    demand a spelled min token, so the cascade falls through every
    pattern on this input instead of producing 75. -/
theorem C1_counterexample :
    _extract_time_from_text ("estimated_time: 1h 15m") = Option.none
    ∧ _extract_time_from_text ("estimated_time: 1h 15m") ≠ some (PyNum.i 75)
    ∧ _extract_time_from_text ("estimated_time: 1h 15m") ≠ some (PyNum.f 75) := by
  refine ⟨by decide, by decide, by decide⟩

/-- C1 amended: time extraction evaluates its pattern cascade in order
    with the first match winning; an hour+minute match yields
    hours*60+minutes, a single-number match is multiplied by 60 only if
    the matched span contains an hour marker token and is otherwise
    treated as minutes, and no match yields None.  The example
    estimated_time: 1h 15m yields None (the labeled patterns need
    whitespace after estimated and the bare hour+minute patterns need a
    spelled min token); 75 minutes yields the float 75.0; a labeled
    hour+minute text such as time: 3h 5min yields the int 185; text with
    no recognizable pattern yields None. -/
theorem C1_time_cascade :
    (∀ text : String, _extract_time_from_text text = timeCascadeSpec text)
    ∧ _extract_time_from_text ("estimated_time: 1h 15m") = Option.none
    ∧ _extract_time_from_text ("75 minutes") = some (PyNum.f 75)
    ∧ _extract_time_from_text ("time: 3h 5min") = some (PyNum.i 185)
    ∧ _extract_time_from_text ("hello world") = Option.none := by
  refine ⟨?_, by decide, by decide, by decide, by decide⟩
  intro text
  have hall : ∀ pat ∈ timePatterns, wfL pat = true ∧ (countGrps pat = 1 ∨ countGrps pat = 2) := by
    intro pat hp
    simp only [timePatterns, List.mem_cons, List.not_mem_nil, or_false] at hp
    rcases hp with rfl | rfl | rfl | rfl | rfl | rfl
    · exact ⟨rfl, Or.inr rfl⟩
    · exact ⟨rfl, Or.inl rfl⟩
    · exact ⟨rfl, Or.inr rfl⟩
    · exact ⟨rfl, Or.inl rfl⟩
    · exact ⟨rfl, Or.inr rfl⟩
    · exact ⟨rfl, Or.inl rfl⟩
  unfold _extract_time_from_text timeCascadeSpec firstCascadeMatch
  exact cascade_equiv timePatterns (lowerChars text) hall

end BambuMcp
